import Mathlib

/-!
Verification of the project bootstrap and build pipeline implemented in
cmd/ponzu/options.go.  The Go code is shallowly embedded: directories are
association lists of named files, external subprocesses (git clone, go build)
are abstracted by their outcome (failure to start, non-zero exit, success),
and each Go function becomes a pure Lean function over that state.
-/

set_option maxHeartbeats 1000000

namespace Ponzu

/-- A file in a directory: a name together with its full contents. -/
structure FileEntry where
  name : String
  contents : String
deriving DecidableEq, Repr

/-- Writing a file into a directory: `os.Create` truncates an existing file of
that name (overwriting its contents) or creates a fresh one, and `io.Copy`
then fills it with the source contents. -/
def writeFile : List FileEntry → String → String → List FileEntry
  | [], name, contents => [⟨name, contents⟩]
  | f :: rest, name, contents =>
    if f.name == name then ⟨name, contents⟩ :: rest
    else f :: writeFile rest name contents

/-- Reading a file's contents by name, `none` when absent. -/
def lookupFile : List FileEntry → String → Option String
  | [], _ => none
  | f :: rest, n => if f.name == n then some f.contents else lookupFile rest n

/-- `var conflictFiles = []string{"item.go", "types.go"}` (options.go line 192):
the ProtectedFileSet. -/
def conflictFiles : List String := ["item.go", "types.go"]

/-- The inner loop of buildPonzuServer (options.go lines 196-201): for each
protected name equal to the entry's name, append it to `mustRenameFiles`.
The Go `continue` inside this loop advances the INNER loop only, so it has no
effect on the copy that follows the loop. -/
def markConflicts (name : String) : List String → List String
  | [] => []
  | c :: rest => if name == c then c :: markConflicts name rest else markConflicts name rest

/-- The copy pass of buildPonzuServer (options.go lines 194-217): for every
entry of the user content directory, collect protected-name matches into the
accumulator and then unconditionally copy the file into the destination (the
`continue` targets the inner conflict loop, so the copy is never skipped). -/
def reconcileLoop : List FileEntry → List String → List FileEntry → List String × List FileEntry
  | [], must, dst => (must, dst)
  | e :: rest, must, dst =>
    reconcileLoop rest (must ++ markConflicts e.name conflictFiles) (writeFile dst e.name e.contents)

/-- The whole copy pass started with an empty `mustRenameFiles` list
(options.go line 193). Returns the final conflict list and destination. -/
def reconcilePass (src dst : List FileEntry) : List String × List FileEntry :=
  reconcileLoop src [] dst

/-- Outcome of launching an external subprocess: `cmd.Start()` fails,
`cmd.Wait()` reports a non-zero exit, or the process succeeds. -/
inductive ProcOutcome where
  | startFail (msg : String)
  | exitFail (msg : String)
  | ok
deriving DecidableEq, Repr

/-- Result of buildPonzuServer: the conflict error (after printing the
colliding names), a build-step error, or success. -/
inductive BuildResult where
  | conflictErr (names : List String)
  | buildFailed (msg : String)
  | ok
deriving DecidableEq, Repr

/-- The build-step error message (options.go lines 240 and 245):
`"Ponzu build step failed. Please try again. " + "\n" + err.Error()`. -/
def buildFailMsg (m : String) : String :=
  "Ponzu build step failed. Please try again. " ++ "\n" ++ m

/-- buildPonzuServer (options.go lines 175-249) over the embedded state: run
the copy pass, return the conflict error when `len(mustRenameFiles) > 1`,
otherwise run the external build whose outcome is `buildProc`.  The second
component is the vendored content directory as left on disk. -/
def buildPonzuServer (src dst : List FileEntry) (buildProc : ProcOutcome) :
    BuildResult × List FileEntry :=
  if (reconcilePass src dst).1.length > 1 then
    (BuildResult.conflictErr (reconcilePass src dst).1, (reconcilePass src dst).2)
  else
    match buildProc with
    | ProcOutcome.startFail m =>
      (BuildResult.buildFailed (buildFailMsg m), (reconcilePass src dst).2)
    | ProcOutcome.exitFail m =>
      (BuildResult.buildFailed (buildFailMsg m), (reconcilePass src dst).2)
    | ProcOutcome.ok => (BuildResult.ok, (reconcilePass src dst).2)

/-- The conflict names contributed by the whole pass, entry by entry. -/
def collect : List FileEntry → List String
  | [] => []
  | e :: rest => markConflicts e.name conflictFiles ++ collect rest

/-- The destination directory after all copies of the pass. -/
def applyWrites : List FileEntry → List FileEntry → List FileEntry
  | [], dst => dst
  | e :: rest, dst => applyWrites rest (writeFile dst e.name e.contents)

/-- The contents the last write to a given name leaves behind, `none` when the
pass never writes that name. -/
def finalVal : List FileEntry → String → Option String
  | [], _ => none
  | e :: rest, n =>
    match finalVal rest n with
    | some c => some c
    | none => if e.name == n then some e.contents else none

/-- Whether the character list `p` occurs contiguously inside `s`. -/
def hasInfix (p : List Char) : List Char → Bool
  | [] => p.isEmpty
  | c :: rest => p.isPrefixOf (c :: rest) || hasInfix p rest

/-- Whether the string `phrase` occurs contiguously inside `s`. -/
def strContains (s phrase : String) : Bool :=
  hasInfix phrase.data s.data

/-- `var ponzuRepo = []string{"github.com", "bosssauce", "ponzu"}`
(options.go line 57). -/
def ponzuRepo : List String := ["github.com", "bosssauce", "ponzu"]

/-- `filepath.Join` over the components, modelled as interposing the path
separator. -/
def joinPath (components : List String) : String :=
  String.intercalate "/" components

/-- One invocation of the external version-control client: the source
location, the optional branch selection, whether a single branch is cloned,
and the destination (options.go lines 76, 100 and 113). -/
structure CloneCmd where
  source : String
  branch : Option String
  singleBranch : Bool
  dest : String
deriving DecidableEq, Repr

/-- The outcomes the environment assigns to each possible clone subprocess of
createProjInDir: the dev clone, the local clone and the network clone. -/
structure CloneEnv where
  devResult : ProcOutcome
  localResult : ProcOutcome
  networkResult : ProcOutcome
deriving DecidableEq, Repr

/-- Result of createProjInDir's fetch phase: success, or an error message. -/
inductive FetchResult where
  | ok
  | err (msg : String)
deriving DecidableEq, Repr

/-- The composite error of options.go line 126:
`fmt.Errorf("Failed to clone files from local machine [%s] and over the
network [%s].\n%s", local, network, err)`. -/
def compositeCloneErr (localPath network m : String) : String :=
  "Failed to clone files from local machine [" ++ localPath
    ++ "] and over the network [" ++ network ++ "].\n" ++ m

/-- createProjInDir (options.go lines 59-128), restricted to its clone phase.
Returns the result together with the ordered list of clone commands it
launched.  Dev mode (lines 71-97): a single clone of branch "ponzu-dev",
single-branch, from the fork override when `fork` is non-empty, with any
failure returned as-is and no further attempt.  Non-dev (lines 99-128): clone
from the local path; a start failure is returned as-is; a non-zero exit falls
back to one network clone, whose start failure is returned as-is and whose
non-zero exit produces the composite two-location error message. -/
def createProjInDir (gopath : String) (dev : Bool) (fork : String) (path : String)
    (env : CloneEnv) : FetchResult × List CloneCmd :=
  let localPath := joinPath [gopath, "src", joinPath ponzuRepo]
  let network := "https://" ++ String.intercalate "/" ponzuRepo ++ ".git"
  if dev then
    let src := if fork ≠ "" then joinPath [gopath, "src", fork] else localPath
    let cmd : CloneCmd := ⟨src, some "ponzu-dev", true, path⟩
    match env.devResult with
    | ProcOutcome.startFail m => (FetchResult.err m, [cmd])
    | ProcOutcome.exitFail m => (FetchResult.err m, [cmd])
    | ProcOutcome.ok => (FetchResult.ok, [cmd])
  else
    let lcmd : CloneCmd := ⟨localPath, none, false, path⟩
    let ncmd : CloneCmd := ⟨network, none, false, path⟩
    match env.localResult with
    | ProcOutcome.startFail m => (FetchResult.err m, [lcmd])
    | ProcOutcome.ok => (FetchResult.ok, [lcmd])
    | ProcOutcome.exitFail _ =>
      match env.networkResult with
      | ProcOutcome.startFail m => (FetchResult.err m, [lcmd, ncmd])
      | ProcOutcome.exitFail m =>
        (FetchResult.err (compositeCloneErr localPath network m), [lcmd, ncmd])
      | ProcOutcome.ok => (FetchResult.ok, [lcmd, ncmd])

/-- The canonical local repository path for a given workspace root. -/
def canonicalLocal (gopath : String) : String :=
  joinPath [gopath, "src", joinPath ponzuRepo]

/-- The fixed network URL of the repository. -/
def networkURL : String :=
  "https://" ++ String.intercalate "/" ponzuRepo ++ ".git"

/-- `strings.ToLower`, modelled as lowercasing each character. -/
def strToLower (s : String) : String :=
  ⟨s.data.map Char.toLower⟩

/-- The observable behaviour of one run of newProjectInDir at an existing or
fresh path: whether the existing tree was destroyed (`os.RemoveAll`), whether
project creation proceeded (`createProjInDir` was called), whether the user
was prompted, whether the "Input not recognized" report was printed, and
whether an error was returned. -/
structure OverwriteOutcome where
  destroyed : Bool
  proceeded : Bool
  prompted : Bool
  unrecognizedReport : Bool
  isError : Bool
deriving DecidableEq, Repr

/-- newProjectInDir (options.go lines 14-55), as a function of whether
something exists at the resolved path and of the answer read from the user
(a bare newline is read back as the empty string, lines 25-31).  The switch
lowercases the answer (line 33) and matches "n"/"no"/"\r\n"/"\n"/"" (abort),
then "y"/"yes" (destroy and re-create), and anything else prints the
not-recognized report and returns nil. -/
def newProjectInDir (pathExists : Bool) (answer : String) : OverwriteOutcome :=
  if pathExists then
    if strToLower answer == "n" || strToLower answer == "no"
        || strToLower answer == "\r\n" || strToLower answer == "\n"
        || strToLower answer == "" then
      ⟨false, false, true, false, false⟩
    else if strToLower answer == "y" || strToLower answer == "yes" then
      ⟨true, true, true, false, false⟩
    else
      ⟨false, false, true, true, false⟩
  else
    ⟨false, true, false, false, false⟩

/-- State of the project tree as vendorCorePackages sees it: the named
subtrees at the project root, and the named subtrees inside the vendor
directory `cmd/ponzu/vendor/github.com/bosssauce/ponzu` (each subtree given by
its files). -/
structure ProjState where
  root : List (String × List FileEntry)
  vendor : List (String × List FileEntry)
deriving DecidableEq, Repr

/-- Look up a named subtree. -/
def findEntry : List (String × List FileEntry) → String → Option (List FileEntry)
  | [], _ => none
  | e :: rest, n => if e.1 == n then some e.2 else findEntry rest n

/-- Remove a named subtree. -/
def removeEntry : List (String × List FileEntry) → String → List (String × List FileEntry)
  | [], _ => []
  | e :: rest, n => if e.1 == n then removeEntry rest n else e :: removeEntry rest n

/-- `dirs := []string{"content", "management", "system"}` (options.go
line 155): the VendorManifest. -/
def vendorDirs : List String := ["content", "management", "system"]

/-- The rename loop of options.go lines 156-162: move each manifest subtree
from the project root into the vendor directory, failing (as `os.Rename`
does) when the source is absent. -/
def renameAll : List String → ProjState → Option ProjState
  | [], st => some st
  | d :: rest, st =>
    match findEntry st.root d with
    | none => none
    | some v => renameAll rest ⟨removeEntry st.root d, st.vendor ++ [(d, v)]⟩

/-- vendorCorePackages (options.go lines 147-173): create the vendor
directory, move the manifest subtrees into it, then `os.Mkdir` a fresh empty
user content directory at the project root (which fails if the name still
exists there). -/
def vendorCorePackages (st : ProjState) : Option ProjState :=
  match renameAll vendorDirs st with
  | none => none
  | some st2 =>
    match findEntry st2.root "content" with
    | some _ => none
    | none => some ⟨st2.root ++ [("content", [])], st2.vendor⟩

/-- Concrete project state used as a test vector for vendoring. -/
def c7st : ProjState :=
  ⟨[("content", [⟨"item.go", "core item"⟩]), ("management", []),
    ("system", [⟨"db.go", "db"⟩]), ("cmd", [])], []⟩

/-- The state vendorCorePackages produces from `c7st`. -/
def c7stAfter : ProjState :=
  ⟨[("cmd", []), ("content", [])],
   [("content", [⟨"item.go", "core item"⟩]), ("management", []),
    ("system", [⟨"db.go", "db"⟩])]⟩

/-- Concrete non-conflicting user content used as a test vector. -/
def c8src : List FileEntry := [⟨"post.go", "p"⟩]

/-- Concrete user content holding both protected names, used as a test vector. -/
def c10src : List FileEntry := [⟨"item.go", "a"⟩, ⟨"types.go", "b"⟩]

end Ponzu

namespace Ponzu

theorem reconcileLoop_fst (src : List FileEntry) :
    ∀ must dst, (reconcileLoop src must dst).1 = must ++ collect src := by
  induction src with
  | nil => intro must dst; simp [reconcileLoop, collect]
  | cons e rest ih =>
    intro must dst
    simp [reconcileLoop, collect, ih, List.append_assoc]

theorem reconcileLoop_snd (src : List FileEntry) :
    ∀ must dst, (reconcileLoop src must dst).2 = applyWrites src dst := by
  induction src with
  | nil => intro must dst; rfl
  | cons e rest ih => intro must dst; simp [reconcileLoop, applyWrites, ih]

theorem reconcilePass_fst (src dst : List FileEntry) :
    (reconcilePass src dst).1 = collect src := by
  simp [reconcilePass, reconcileLoop_fst]

theorem reconcilePass_snd (src dst : List FileEntry) :
    (reconcilePass src dst).2 = applyWrites src dst :=
  reconcileLoop_snd src [] dst

theorem lookupFile_writeFile (d : List FileEntry) (name contents n : String) :
    lookupFile (writeFile d name contents) n
      = if name == n then some contents else lookupFile d n := by
  induction d with
  | nil => simp [writeFile, lookupFile]
  | cons f rest ih =>
    by_cases hf : f.name = name
    · simp only [writeFile, hf, beq_self_eq_true, if_true, lookupFile]
      by_cases hn : name = n
      · simp [hn]
      · have : f.name ≠ n := by rw [hf]; exact hn
        simp [hn, this]
    · have hb : (f.name == name) = false := by simpa using hf
      simp only [writeFile, hb, Bool.false_eq_true, if_false, lookupFile]
      by_cases hfn : f.name = n
      · have hnn : name ≠ n := by rw [← hfn]; exact fun h => hf h.symm
        simp [hfn, hnn]
      · simp [hfn, ih]

theorem lookupFile_applyWrites (src : List FileEntry) :
    ∀ d n, lookupFile (applyWrites src d) n
      = match finalVal src n with
        | some c => some c
        | none => lookupFile d n := by
  induction src with
  | nil => intro d n; simp [applyWrites, finalVal]
  | cons e rest ih =>
    intro d n
    simp only [applyWrites, finalVal, ih, lookupFile_writeFile]
    cases finalVal rest n with
    | some c => rfl
    | none =>
      by_cases h : e.name = n
      · simp [h]
      · have hb : (e.name == n) = false := by simpa using h
        simp [hb]

theorem markConflicts_nil (n : String) (cs : List String) (h : n ∉ cs) :
    markConflicts n cs = [] := by
  induction cs with
  | nil => rfl
  | cons c rest ih =>
    have hne : n ≠ c := fun hc => h (hc ▸ List.mem_cons_self c rest)
    have hb : (n == c) = false := by simpa using hne
    simp only [markConflicts, hb, Bool.false_eq_true, if_false]
    exact ih (fun hm => h (List.mem_cons_of_mem _ hm))

theorem collect_nil (src : List FileEntry) (h : ∀ e ∈ src, e.name ∉ conflictFiles) :
    collect src = [] := by
  induction src with
  | nil => rfl
  | cons e rest ih =>
    simp only [collect]
    rw [markConflicts_nil e.name conflictFiles (h e (List.mem_cons_self e rest)),
      ih (fun f hf => h f (List.mem_cons_of_mem _ hf))]
    rfl

/-- C1: The spec claims a user file whose name is in the ProtectedFileSet is
NOT copied into the vendored content directory, only recorded as a conflict.
The code records the conflict but still copies the file: the `continue` at
options.go line 199 only advances the inner loop over `conflictFiles`, so the
copy below it always executes.  Evaluated at the failing input (user directory
holding only `item.go`, empty destination): the conflict list is exactly
`["item.go"]`, yet the destination now holds the user's `item.go` contents. -/
theorem C1_protected_file_still_copied :
    (reconcilePass [⟨"item.go", "user contents"⟩] []).1 = ["item.go"] ∧
    lookupFile (reconcilePass [⟨"item.go", "user contents"⟩] []).2 "item.go"
      = some "user contents" := by
  constructor
  · rfl
  · rfl

/-- C2: The spec claims a non-empty conflict list — already a single colliding
name — yields the conflict error and no compile is attempted.  The code tests
`len(mustRenameFiles) > 1` (options.go line 219), so with user files `foo.txt`
and the protected `item.go` the conflict list is `["item.go"]` but the build
proceeds and succeeds. -/
theorem C2_single_conflict_not_blocked :
    (reconcilePass [⟨"foo.txt", "fc"⟩, ⟨"item.go", "ic"⟩] []).1 = ["item.go"] ∧
    (buildPonzuServer [⟨"foo.txt", "fc"⟩, ⟨"item.go", "ic"⟩] [] ProcOutcome.ok).1
      = BuildResult.ok := by
  constructor
  · rfl
  · rfl

/-- C8: for a user content directory with no protected names, running the
copy pass twice yields an empty conflict list both times and leaves every
destination file with the same contents as after the first run. -/
theorem C8_reconcile_idempotent (src dst : List FileEntry)
    (h : ∀ e ∈ src, e.name ∉ conflictFiles) :
    (reconcilePass src dst).1 = [] ∧
    (reconcilePass src (reconcilePass src dst).2).1 = [] ∧
    ∀ n, lookupFile (reconcilePass src (reconcilePass src dst).2).2 n
       = lookupFile (reconcilePass src dst).2 n := by
  have h1 : ∀ d : List FileEntry, (reconcilePass src d).1 = [] := by
    intro d
    rw [reconcilePass_fst, collect_nil src h]
  refine ⟨h1 dst, h1 _, ?_⟩
  intro n
  simp only [reconcilePass_snd, lookupFile_applyWrites]
  cases finalVal src n with
  | some c => rfl
  | none => rfl

theorem C8_witness :
    (∀ e ∈ c8src, e.name ∉ conflictFiles) ∧
    ((reconcilePass c8src []).1 = [] ∧
     (reconcilePass c8src (reconcilePass c8src []).2).1 = [] ∧
     ∀ n, lookupFile (reconcilePass c8src (reconcilePass c8src []).2).2 n
       = lookupFile (reconcilePass c8src []).2 n) :=
  ⟨by decide, C8_reconcile_idempotent c8src [] (by decide)⟩

theorem buildPonzuServer_snd (src dst : List FileEntry) (bp : ProcOutcome) :
    (buildPonzuServer src dst bp).2 = (reconcilePass src dst).2 := by
  unfold buildPonzuServer
  split
  · rfl
  · cases bp <;> rfl

/-- C10: whenever buildPonzuServer returns the conflict error, the destination
directory is exactly the state left by the full copy pass: every write of the
pass persists (the error is produced only after the loop finishes, and nothing
is rolled back), so any name whose last written contents differ from its
pre-call contents now differs from the pre-call state. -/
theorem C10_conflict_not_atomic (src dst : List FileEntry) (bp : ProcOutcome)
    (names : List String)
    (h : (buildPonzuServer src dst bp).1 = BuildResult.conflictErr names) :
    (buildPonzuServer src dst bp).2 = (reconcilePass src dst).2 ∧
    (∀ n, lookupFile (buildPonzuServer src dst bp).2 n
        = match finalVal src n with
          | some c => some c
          | none => lookupFile dst n) ∧
    (∀ n c, finalVal src n = some c → lookupFile dst n ≠ some c →
        lookupFile (buildPonzuServer src dst bp).2 n ≠ lookupFile dst n) := by
  refine ⟨buildPonzuServer_snd src dst bp, ?_, ?_⟩
  · intro n
    rw [buildPonzuServer_snd, reconcilePass_snd, lookupFile_applyWrites]
  · intro n c hf hne
    rw [buildPonzuServer_snd, reconcilePass_snd, lookupFile_applyWrites, hf]
    exact fun hcc => hne hcc.symm

theorem C10_witness :
    ((buildPonzuServer c10src [] ProcOutcome.ok).1
        = BuildResult.conflictErr (["item.go", "types.go"] : List String)) ∧
    ((buildPonzuServer c10src [] ProcOutcome.ok).2 = (reconcilePass c10src []).2 ∧
    (∀ n, lookupFile (buildPonzuServer c10src [] ProcOutcome.ok).2 n
        = match finalVal c10src n with
          | some c => some c
          | none => lookupFile ([] : List FileEntry) n) ∧
    (∀ n c, finalVal c10src n = some c →
        lookupFile ([] : List FileEntry) n ≠ some c →
        lookupFile (buildPonzuServer c10src [] ProcOutcome.ok).2 n
          ≠ lookupFile ([] : List FileEntry) n)) :=
  ⟨by decide,
    C10_conflict_not_atomic c10src [] ProcOutcome.ok ["item.go", "types.go"] (by decide)⟩

theorem isPrefixOf_append_self (p b : List Char) : p.isPrefixOf (p ++ b) = true := by
  induction p with
  | nil => rw [List.nil_append]; cases b <;> rfl
  | cons x xs ih => simp [List.isPrefixOf, ih]

theorem hasInfix_append (p a b : List Char) : hasInfix p (a ++ (p ++ b)) = true := by
  induction a with
  | nil =>
    rw [List.nil_append]
    cases hpb : p ++ b with
    | nil =>
      have hp : p = [] := (List.append_eq_nil.mp hpb).1
      subst hp
      rfl
    | cons c rest =>
      rw [hasInfix, ← hpb, isPrefixOf_append_self]
      rfl
  | cons x xs ih =>
    rw [List.cons_append, hasInfix, ih, Bool.or_true]

theorem strData_append (a b : String) : (a ++ b).data = a.data ++ b.data := by
  cases a
  cases b
  rfl

theorem strContains_of_split (s phrase : String) (a b : List Char)
    (h : s.data = a ++ (phrase.data ++ b)) : strContains s phrase = true := by
  rw [strContains, h, hasInfix_append]

/-- C9: when the conflict check passes but the external toolchain either fails
to launch or exits non-zero, buildPonzuServer returns the build-step error; its
message contains the literal phrase "build step failed" and wraps the
underlying diagnostic text. -/
theorem C9_build_failed_reported (src dst : List FileEntry) (m : String) (bp : ProcOutcome)
    (hc : ¬ (reconcilePass src dst).1.length > 1)
    (hb : bp = ProcOutcome.startFail m ∨ bp = ProcOutcome.exitFail m) :
    (buildPonzuServer src dst bp).1 = BuildResult.buildFailed (buildFailMsg m) ∧
    strContains (buildFailMsg m) "build step failed" = true ∧
    strContains (buildFailMsg m) m = true := by
  refine ⟨?_, ?_, ?_⟩
  · unfold buildPonzuServer
    rcases hb with hb | hb <;> subst hb <;> simp [hc]
  · have hdata : (buildFailMsg m).data
        = "Ponzu ".data ++ ("build step failed".data
            ++ (". Please try again. ".data ++ ("\n".data ++ m.data))) := by
      rw [buildFailMsg, strData_append, strData_append]
      have hsplit : "Ponzu build step failed. Please try again. ".data
          = "Ponzu ".data ++ "build step failed".data ++ ". Please try again. ".data := by
        rfl
      rw [hsplit]
      simp [List.append_assoc]
    exact strContains_of_split _ _ _ _ hdata
  · have hdata : (buildFailMsg m).data
        = ("Ponzu build step failed. Please try again. ".data ++ "\n".data)
            ++ (m.data ++ []) := by
      rw [buildFailMsg, strData_append, strData_append]
      simp
    exact strContains_of_split _ _ _ _ hdata

/-- C6: at an existing path, each of the inputs "n", "no", "", "\n" aborts
without destroying anything; the existing tree is destroyed (and creation
proceeds) exactly when the lowercased answer is "y" or "yes"; destruction and
proceeding coincide; no answer is an error; any input outside both recognized
sets is reported once as unrecognized, destroying nothing, as a normal
non-error exit; and at a fresh path creation proceeds without prompting. -/
theorem C6_overwrite_prompt (answer : String) :
    (answer ∈ (["n", "no", "", "\n"] : List String) →
        newProjectInDir true answer = ⟨false, false, true, false, false⟩) ∧
    ((newProjectInDir true answer).destroyed = true ↔
        strToLower answer ∈ (["y", "yes"] : List String)) ∧
    (newProjectInDir true answer).proceeded = (newProjectInDir true answer).destroyed ∧
    (newProjectInDir true answer).isError = false ∧
    (strToLower answer ∉ (["n", "no", "\r\n", "\n", "", "y", "yes"] : List String) →
        newProjectInDir true answer = ⟨false, false, true, true, false⟩) ∧
    newProjectInDir false answer = ⟨false, true, false, false, false⟩ := by
  by_cases hc1 : (strToLower answer == "n" || strToLower answer == "no"
      || strToLower answer == "\r\n" || strToLower answer == "\n"
      || strToLower answer == "") = true
  · have h1 : strToLower answer = "n" ∨ strToLower answer = "no"
        ∨ strToLower answer = "\r\n" ∨ strToLower answer = "\n"
        ∨ strToLower answer = "" := by
      simpa [or_assoc] using hc1
    have hout : newProjectInDir true answer = ⟨false, false, true, false, false⟩ := by
      simp only [newProjectInDir, hc1, if_true]
    refine ⟨fun _ => hout, ?_, ?_, ?_, fun hn => ?_, ?_⟩
    · rw [hout]
      constructor
      · intro hd; cases hd
      · intro hm
        exfalso
        rcases h1 with h | h | h | h | h <;> rw [h] at hm <;> exact absurd hm (by decide)
    · rw [hout]
    · rw [hout]
    · exfalso
      rcases h1 with h | h | h | h | h <;> rw [h] at hn <;> exact absurd (by decide) hn
    · simp [newProjectInDir]
  · by_cases hc2 : (strToLower answer == "y" || strToLower answer == "yes") = true
    · have h2 : strToLower answer = "y" ∨ strToLower answer = "yes" := by
        simpa using hc2
      have hout : newProjectInDir true answer = ⟨true, true, true, false, false⟩ := by
        simp only [newProjectInDir, hc1, hc2, if_true, Bool.false_eq_true, if_false]
      refine ⟨fun hm => ?_, ?_, ?_, ?_, fun hn => ?_, ?_⟩
      · exfalso
        have : answer = "n" ∨ answer = "no" ∨ answer = "" ∨ answer = "\n" := by
          simpa using hm
        rcases this with h | h | h | h <;> subst h <;> exact hc1 (by decide)
      · rw [hout]
        refine ⟨fun _ => ?_, fun _ => rfl⟩
        rcases h2 with h | h <;> rw [h] <;> decide
      · rw [hout]
      · rw [hout]
      · exfalso
        rcases h2 with h | h <;> rw [h] at hn <;> exact absurd (by decide) hn
      · simp [newProjectInDir]
    · have hout : newProjectInDir true answer = ⟨false, false, true, true, false⟩ := by
        simp only [newProjectInDir, hc1, hc2, Bool.false_eq_true, if_false, if_true]
      refine ⟨fun hm => ?_, ?_, ?_, ?_, fun _ => hout, ?_⟩
      · exfalso
        have : answer = "n" ∨ answer = "no" ∨ answer = "" ∨ answer = "\n" := by
          simpa using hm
        rcases this with h | h | h | h <;> subst h <;> exact hc1 (by decide)
      · rw [hout]
        constructor
        · intro hd; cases hd
        · intro hm
          exfalso
          apply hc2
          have : strToLower answer = "y" ∨ strToLower answer = "yes" := by
            simpa using hm
          rcases this with h | h <;> simp [h]
      · rw [hout]
      · rw [hout]
      · simp [newProjectInDir]

theorem C6_witness :
    newProjectInDir true "n" = ⟨false, false, true, false, false⟩ ∧
    (newProjectInDir true "YES").destroyed = true ∧
    newProjectInDir false "" = ⟨false, true, false, false, false⟩ :=
  ⟨(C6_overwrite_prompt "n").1 (by decide),
   ((C6_overwrite_prompt "YES").2.1).mpr (by decide),
   (C6_overwrite_prompt "").2.2.2.2.2⟩

theorem findEntry_removeEntry_self (l : List (String × List FileEntry)) (n : String) :
    findEntry (removeEntry l n) n = none := by
  induction l with
  | nil => rfl
  | cons e rest ih =>
    by_cases h : e.1 = n
    · simp [removeEntry, h, ih]
    · have hb : (e.1 == n) = false := by simpa using h
      simp [removeEntry, findEntry, hb, ih]

theorem findEntry_removeEntry_ne (l : List (String × List FileEntry)) (n m : String)
    (hnm : m ≠ n) :
    findEntry (removeEntry l n) m = findEntry l m := by
  have hb : (n == m) = false := by
    simp only [beq_eq_false_iff_ne, ne_eq]
    exact fun hc => hnm hc.symm
  induction l with
  | nil => rfl
  | cons e rest ih =>
    by_cases h : e.1 = n
    · simp [removeEntry, findEntry, h, hb, ih]
    · have hbe : (e.1 == n) = false := by simpa using h
      simp [removeEntry, findEntry, hbe, ih]

theorem findEntry_append (l r : List (String × List FileEntry)) (n : String) :
    findEntry (l ++ r) n
      = match findEntry l n with
        | some v => some v
        | none => findEntry r n := by
  induction l with
  | nil => rfl
  | cons e rest ih =>
    by_cases h : e.1 = n
    · simp [findEntry, h]
    · have hb : (e.1 == n) = false := by simpa using h
      simp [findEntry, hb, ih]

/-- C7: after a successful vendorCorePackages run started with a fresh vendor
directory, the framework subtrees "management" and "system" are gone from the
project root, every manifest subtree sits in the vendor directory with its
original contents, and the project root holds a freshly created empty
"content" directory. -/
theorem C7_vendor_moves_subtrees (st st' : ProjState)
    (hv : st.vendor = [])
    (h : vendorCorePackages st = some st') :
    findEntry st'.root "management" = none ∧
    findEntry st'.root "system" = none ∧
    findEntry st'.root "content" = some [] ∧
    findEntry st'.vendor "content" = findEntry st.root "content" ∧
    findEntry st'.vendor "management" = findEntry st.root "management" ∧
    findEntry st'.vendor "system" = findEntry st.root "system" := by
  unfold vendorCorePackages at h
  cases hc : findEntry st.root "content" with
  | none =>
    simp only [vendorDirs, renameAll, hc] at h
    exact Option.noConfusion h
  | some cv =>
    cases hm : findEntry (removeEntry st.root "content") "management" with
    | none =>
      simp only [vendorDirs, renameAll, hc, hm] at h
      exact Option.noConfusion h
    | some mv =>
      cases hs : findEntry (removeEntry (removeEntry st.root "content") "management")
          "system" with
      | none =>
        simp only [vendorDirs, renameAll, hc, hm, hs] at h
        exact Option.noConfusion h
      | some sv =>
        have hr3 : findEntry (removeEntry (removeEntry (removeEntry st.root "content")
            "management") "system") "content" = none := by
          rw [findEntry_removeEntry_ne _ _ _ (by decide),
            findEntry_removeEntry_ne _ _ _ (by decide),
            findEntry_removeEntry_self]
        simp only [vendorDirs, renameAll, hc, hm, hs, hr3, Option.some.injEq] at h
        subst h
        have hmgmt : findEntry st.root "management" = some mv := by
          rw [← findEntry_removeEntry_ne st.root "content" "management" (by decide)]
          exact hm
        have hsys : findEntry st.root "system" = some sv := by
          rw [← findEntry_removeEntry_ne st.root "content" "system" (by decide),
            ← findEntry_removeEntry_ne _ "management" "system" (by decide)]
          exact hs
        refine ⟨?_, ?_, ?_, ?_, ?_, ?_⟩
        · rw [findEntry_append]
          have hnone : findEntry (removeEntry (removeEntry (removeEntry st.root "content")
              "management") "system") "management" = none := by
            rw [findEntry_removeEntry_ne _ _ _ (by decide),
              findEntry_removeEntry_self]
          rw [hnone]
          decide
        · rw [findEntry_append, findEntry_removeEntry_self]
          decide
        · rw [findEntry_append, hr3]
          decide
        · simp +decide [hc, hv, findEntry]
        · simp +decide [hmgmt, hv, findEntry]
        · simp +decide [hsys, hv, findEntry]

theorem C7_witness :
    c7st.vendor = [] ∧
    vendorCorePackages c7st = some c7stAfter ∧
    (findEntry c7stAfter.root "management" = none ∧
     findEntry c7stAfter.root "system" = none ∧
     findEntry c7stAfter.root "content" = some [] ∧
     findEntry c7stAfter.vendor "content" = findEntry c7st.root "content" ∧
     findEntry c7stAfter.vendor "management" = findEntry c7st.root "management" ∧
     findEntry c7stAfter.vendor "system" = findEntry c7st.root "system") :=
  ⟨rfl, by decide, C7_vendor_moves_subtrees c7st c7stAfter rfl (by decide)⟩

theorem strContains_split3 (a p b : String) (s : String)
    (h : s.data = a.data ++ (p.data ++ b.data)) : strContains s p = true :=
  strContains_of_split s p a.data b.data h

/-- C3 as written is false: the spec says a Local attempt that "cannot even
start" also triggers the Remote fallback, but options.go lines 104-107 return
the start error immediately.  Concretely: the local clone fails to start, the
network clone would succeed, yet the fetch fails with the raw start error and
only the local command was ever launched. -/
theorem C3_counterexample :
    createProjInDir "/go" false "" "/go/src/myproj"
        ⟨ProcOutcome.ok, ProcOutcome.startFail "fork-exec failed", ProcOutcome.ok⟩
      = (FetchResult.err "fork-exec failed",
         [⟨"/go/src/github.com/bosssauce/ponzu", none, false, "/go/src/myproj"⟩]) := by
  decide

/-- C3 (amended): the Remote fallback is tried exactly when the Local clone
starts but exits non-zero; in that case, with a succeeding Remote source, the
overall fetch succeeds, having launched the Local command first and the
Remote command second. -/
theorem C3_fallback_on_exit_failure (gopath fork path m : String) (env : CloneEnv)
    (hl : env.localResult = ProcOutcome.exitFail m)
    (hn : env.networkResult = ProcOutcome.ok) :
    (createProjInDir gopath false fork path env).1 = FetchResult.ok ∧
    (createProjInDir gopath false fork path env).2
      = [⟨canonicalLocal gopath, none, false, path⟩,
         ⟨networkURL, none, false, path⟩] := by
  simp [createProjInDir, hl, hn, canonicalLocal, networkURL]

theorem C3_witness :
    ((⟨ProcOutcome.ok, ProcOutcome.exitFail "exit status 128", ProcOutcome.ok⟩ :
        CloneEnv).localResult = ProcOutcome.exitFail "exit status 128") ∧
    ((createProjInDir "/go" false "" "/go/src/proj"
        ⟨ProcOutcome.ok, ProcOutcome.exitFail "exit status 128", ProcOutcome.ok⟩).1
          = FetchResult.ok ∧
     (createProjInDir "/go" false "" "/go/src/proj"
        ⟨ProcOutcome.ok, ProcOutcome.exitFail "exit status 128", ProcOutcome.ok⟩).2
       = [⟨canonicalLocal "/go", none, false, "/go/src/proj"⟩,
          ⟨networkURL, none, false, "/go/src/proj"⟩]) :=
  ⟨rfl, C3_fallback_on_exit_failure "/go" "" "/go/src/proj" "exit status 128" _ rfl rfl⟩

/-- C4 as written is false: when the Remote fallback fails to even start,
options.go lines 117-121 return the bare start error, which names neither
attempted location, instead of the composite two-location error. -/
theorem C4_counterexample :
    (createProjInDir "/go" false "" "/go/src/myproj"
        ⟨ProcOutcome.ok, ProcOutcome.exitFail "local failed",
          ProcOutcome.startFail "netstart"⟩).1
      = FetchResult.err "netstart" ∧
    strContains "netstart" (canonicalLocal "/go") = false ∧
    strContains "netstart" networkURL = false := by
  decide

/-- C4 (amended): when the Local clone exits non-zero and the Remote fallback
also starts and exits non-zero, the fetch returns the single composite error
naming the local path and the network URL and wrapping the underlying failure
text. -/
theorem C4_composite_error (gopath fork path m1 m2 : String) (env : CloneEnv)
    (hl : env.localResult = ProcOutcome.exitFail m1)
    (hn : env.networkResult = ProcOutcome.exitFail m2) :
    (createProjInDir gopath false fork path env).1
      = FetchResult.err (compositeCloneErr (canonicalLocal gopath) networkURL m2) ∧
    strContains (compositeCloneErr (canonicalLocal gopath) networkURL m2)
      (canonicalLocal gopath) = true ∧
    strContains (compositeCloneErr (canonicalLocal gopath) networkURL m2)
      networkURL = true ∧
    strContains (compositeCloneErr (canonicalLocal gopath) networkURL m2) m2 = true := by
  refine ⟨?_, ?_, ?_, ?_⟩
  · simp [createProjInDir, hl, hn, compositeCloneErr, canonicalLocal, networkURL]
  · exact strContains_split3 "Failed to clone files from local machine ["
      (canonicalLocal gopath)
      ("] and over the network [" ++ networkURL ++ "].\n" ++ m2) _
      (by simp only [compositeCloneErr, strData_append, List.append_assoc])
  · exact strContains_split3
      ("Failed to clone files from local machine [" ++ canonicalLocal gopath
        ++ "] and over the network [")
      networkURL ("].\n" ++ m2) _
      (by simp only [compositeCloneErr, strData_append, List.append_assoc])
  · exact strContains_split3
      ("Failed to clone files from local machine [" ++ canonicalLocal gopath
        ++ "] and over the network [" ++ networkURL ++ "].\n")
      m2 "" _
      (by simp only [compositeCloneErr, strData_append, List.append_assoc,
        List.append_nil])

theorem C4_witness :
    ((⟨ProcOutcome.ok, ProcOutcome.exitFail "e1", ProcOutcome.exitFail "e2"⟩ :
        CloneEnv).localResult = ProcOutcome.exitFail "e1") ∧
    ((createProjInDir "/go" false "" "/go/src/proj"
        ⟨ProcOutcome.ok, ProcOutcome.exitFail "e1", ProcOutcome.exitFail "e2"⟩).1
      = FetchResult.err (compositeCloneErr (canonicalLocal "/go") networkURL "e2") ∧
     strContains (compositeCloneErr (canonicalLocal "/go") networkURL "e2")
       (canonicalLocal "/go") = true ∧
     strContains (compositeCloneErr (canonicalLocal "/go") networkURL "e2")
       networkURL = true ∧
     strContains (compositeCloneErr (canonicalLocal "/go") networkURL "e2") "e2" = true) :=
  ⟨rfl, C4_composite_error "/go" "" "/go/src/proj" "e1" "e2" _ rfl rfl⟩

/-- C5: in dev mode the single clone command uses branch "ponzu-dev" with
single-branch semantics from the Local source — the fork override path when
`fork` is non-empty, the canonical Local repo path otherwise — and any
failure of that clone (start failure or non-zero exit) is returned
immediately, with no other clone command ever launched. -/
theorem C5_dev_clone (gopath fork path m : String) (env : CloneEnv)
    (h : env.devResult = ProcOutcome.startFail m ∨ env.devResult = ProcOutcome.exitFail m) :
    (createProjInDir gopath true fork path env).2
      = [⟨(if fork ≠ "" then joinPath [gopath, "src", fork] else canonicalLocal gopath),
          some "ponzu-dev", true, path⟩] ∧
    (createProjInDir gopath true fork path env).1 = FetchResult.err m := by
  rcases h with h | h <;> simp [createProjInDir, h, canonicalLocal]

theorem C5_witness :
    ((⟨ProcOutcome.exitFail "dev clone failed", ProcOutcome.ok, ProcOutcome.ok⟩ :
        CloneEnv).devResult = ProcOutcome.startFail "dev clone failed" ∨
     (⟨ProcOutcome.exitFail "dev clone failed", ProcOutcome.ok, ProcOutcome.ok⟩ :
        CloneEnv).devResult = ProcOutcome.exitFail "dev clone failed") ∧
    ((createProjInDir "/go" true "" "/go/src/proj"
        ⟨ProcOutcome.exitFail "dev clone failed", ProcOutcome.ok, ProcOutcome.ok⟩).2
      = [⟨(if "" ≠ "" then joinPath ["/go", "src", ""] else canonicalLocal "/go"),
          some "ponzu-dev", true, "/go/src/proj"⟩] ∧
     (createProjInDir "/go" true "" "/go/src/proj"
        ⟨ProcOutcome.exitFail "dev clone failed", ProcOutcome.ok, ProcOutcome.ok⟩).1
      = FetchResult.err "dev clone failed") :=
  ⟨Or.inr rfl, C5_dev_clone "/go" "" "/go/src/proj" "dev clone failed" _ (Or.inr rfl)⟩

theorem C9_witness :
    (¬ (reconcilePass ([] : List FileEntry) []).1.length > 1) ∧
    ((buildPonzuServer [] [] (ProcOutcome.exitFail "exit status 2")).1
        = BuildResult.buildFailed (buildFailMsg "exit status 2") ∧
      strContains (buildFailMsg "exit status 2") "build step failed" = true ∧
      strContains (buildFailMsg "exit status 2") "exit status 2" = true) :=
  ⟨by decide, C9_build_failed_reported [] [] "exit status 2" _ (by decide) (Or.inr rfl)⟩

end Ponzu
